import Mathlib

/-!
# WorkspacePageWithSections and FloatingActionButton

A shallow embedding of two React components:

* `src/pages/workspace/WorkspacePageWithSections.js`: the render function, the
  `fetchData` helper and the mount / re-render / reconnect life cycle;
* `src/components/FloatingActionButton.js`: the shared animation value, the derived
  style, the ref callback and the press handlers.

JavaScript values that may be `undefined` are `Option`s, handlers are recorded as the
list of calls they make, a call of a function owned by the caller passes the caller's
state through it, and hook state is passed explicitly.
-/

namespace WorkspacePageWithSections

/-! ## Data received by the page -/

/-- A policy object, given by its own enumerable properties. -/
structure PolicyObject where
  entries : List (String × String)
deriving DecidableEq, Repr

/-- The `policy` prop: `none` stands for `null` / `undefined`. -/
abbrev Policy := Option PolicyObject

/-- Underscore `_.isEmpty` on the policy prop: true for `null` / `undefined` and for an
object without own enumerable properties. -/
def isEmpty : Policy → Bool
  | none => true
  | some o => o.entries.isEmpty

/-- The two predicates of `@libs/PolicyUtils` the page calls; their bodies are not part
of the page, so they are taken as parameters. -/
structure PolicyUtils where
  isPolicyAdmin : Policy → Bool
  isPendingDeletePolicy : Policy → Bool

/-- The route table entry the page reads, `ROUTES.SETTINGS_WORKSPACES`, as a parameter. -/
structure ROUTES where
  SETTINGS_WORKSPACES : String
deriving DecidableEq, Repr

/-- Modelled from the spec: the constant `BankAccount.STATE.OPEN` of
`@libs/models/BankAccount` is not in the sources; the spec compares the ACH state
with the string `"OPEN"`. -/
def BankAccount.STATE.OPEN : String := "OPEN"

/-- The `achData` record of the reimbursement account. -/
structure AchData where
  state : Option String
deriving DecidableEq, Repr

/-- The `reimbursementAccount` record from Onyx; every field may be missing. -/
structure ReimbursementAccount where
  isLoading : Option Bool
  achData : Option AchData
deriving DecidableEq, Repr

/-- The `user` record from Onyx. -/
structure User where
  isUsingExpensifyCard : Option Bool
deriving DecidableEq, Repr

/-- The `route.params` record. -/
structure Params where
  policyID : Option String
deriving DecidableEq, Repr

/-- The `route` prop. -/
structure Route where
  params : Option Params
deriving DecidableEq, Repr

/-- The arguments of one call of the `children` render function:
`(hasVBA, policyID, isUsingECard)`. -/
abbrev ChildrenArgs := Bool × Option String × Bool

/-- The props of `WorkspacePageWithSections` as the component function receives them,
the default props already filled in. `γ` is the type of renderable content and `σ` the
type of the caller's state: `children` is the caller's function, so a call of it is
observed by the caller, who may read and change that state in it. -/
structure Props (γ σ : Type) where
  backButtonRoute : String
  children : Bool → Option String → Bool → σ → γ × σ
  footer : Option γ
  guidesCallTaskID : String
  headerText : String
  policy : Policy
  reimbursementAccount : Option ReimbursementAccount
  route : Option Route
  shouldUseScrollView : Bool
  shouldSkipVBBACall : Bool
  user : Option User
  shouldShowLoading : Bool
  shouldShowOfflineIndicatorInWideScreen : Bool

/-! ## Rendered tree -/

/-- A call to the navigation service. -/
inductive NavCall where
  | goBack (route : String)
deriving DecidableEq, Repr

/-- The props of the `HeaderWithBackButton` element; a handler is the list of calls it
makes when it is invoked. -/
structure HeaderWithBackButton where
  title : String
  guidesCallTaskID : String
  shouldShowBackButton : Bool
  onBackButtonPress : List NavCall
deriving DecidableEq, Repr

/-- The main content: inside `ScrollViewWithContext` or bare. -/
inductive ContentBox (γ : Type) where
  | scrollView (content : γ)
  | bare (content : γ)
deriving DecidableEq, Repr

/-- What stands below the header: the loading indicator, or the fragment made of the
content and the footer. -/
inductive Body (γ : Type) where
  | loadingIndicator
  | fragment (main : ContentBox γ) (footer : Option γ)
deriving DecidableEq, Repr

/-- The props of the `FullPageNotFoundView` element, its children included. -/
structure FullPageNotFoundViewProps (γ : Type) where
  onBackButtonPress : List NavCall
  onLinkPress : List NavCall
  shouldShow : Bool
  subtitleKey : Option String
  shouldForceFullScreen : Bool
  header : HeaderWithBackButton
  body : Body γ
deriving DecidableEq, Repr

/-- The `ScreenWrapper` element returned by the component. -/
structure ScreenWrapper (γ : Type) where
  includeSafeAreaPaddingBottom : Bool
  shouldEnablePickerAvoiding : Bool
  shouldEnableMaxHeight : Bool
  testID : String
  shouldShowOfflineIndicatorInWideScreen : Bool
  notFoundView : FullPageNotFoundViewProps γ
deriving DecidableEq, Repr

/-- One run of the component function: the caller's state after the run, and the tree. -/
structure Rendered (γ σ : Type) where
  world : σ
  tree : ScreenWrapper γ
deriving DecidableEq, Repr

/-- Lodash `get` with a default, on a path already resolved to an optional value. -/
def lodashGet {α : Type} (resolved : Option α) (defaultValue : α) : α :=
  resolved.getD defaultValue

/-- The component function `WorkspacePageWithSections`. `isSmallScreenWidth` is what
`useWindowDimensions` returns, `firstRender` is `firstRender.current` at the time of the
call, and `world` is the caller's state at that time. -/
def render {γ σ : Type} (utils : PolicyUtils) (routes : ROUTES) (p : Props γ σ)
    (isSmallScreenWidth firstRender : Bool) (world : σ) : Rendered γ σ :=
  let isLoading := lodashGet (p.reimbursementAccount.bind (·.isLoading)) true
  let achState := lodashGet ((p.reimbursementAccount.bind (·.achData)).bind (·.state)) ""
  let hasVBA := decide (achState = BankAccount.STATE.OPEN)
  let isUsingECard := lodashGet (p.user.bind (·.isUsingExpensifyCard)) false
  let policyID := (p.route.bind (·.params)).bind (·.policyID)
  let called := p.children hasVBA policyID isUsingECard world
  let content := called.1
  let goBack := [NavCall.goBack routes.SETTINGS_WORKSPACES]
  { world := called.2
    tree :=
      { includeSafeAreaPaddingBottom := false
        shouldEnablePickerAvoiding := false
        shouldEnableMaxHeight := true
        testID := "WorkspacePageWithSections"
        shouldShowOfflineIndicatorInWideScreen := p.shouldShowOfflineIndicatorInWideScreen
        notFoundView :=
          { onBackButtonPress := goBack
            onLinkPress := goBack
            shouldShow := isEmpty p.policy || !utils.isPolicyAdmin p.policy
              || utils.isPendingDeletePolicy p.policy
            subtitleKey :=
              if isEmpty p.policy then none else some "workspace.common.notAuthorized"
            shouldForceFullScreen := true
            header :=
              { title := p.headerText
                guidesCallTaskID := p.guidesCallTaskID
                shouldShowBackButton := isSmallScreenWidth
                onBackButtonPress := [NavCall.goBack p.backButtonRoute] }
            body :=
              if (isLoading || firstRender) && p.shouldShowLoading then
                Body.loadingIndicator
              else
                Body.fragment
                  (if p.shouldUseScrollView then ContentBox.scrollView content
                   else ContentBox.bare content)
                  p.footer } } }

/-- What the user sees. -/
inductive View (γ : Type) where
  | forbidden (subtitleKey : Option String) (onBackButtonPress onLinkPress : List NavCall)
  | page (header : HeaderWithBackButton) (body : Body γ)
deriving DecidableEq, Repr

/-- Modelled from the spec: the component `FullPageNotFoundView` of
`@components/BlockingViews` is not in the sources. Following the spec, when `shouldShow`
holds it renders the Forbidden (not-found) view with the given subtitle key and back and
link handlers, and otherwise it renders its children. -/
def FullPageNotFoundView {γ : Type} (v : FullPageNotFoundViewProps γ) : View γ :=
  if v.shouldShow then View.forbidden v.subtitleKey v.onBackButtonPress v.onLinkPress
  else View.page v.header v.body

/-- The view shown for one run of the component function. -/
def display {γ σ : Type} (r : Rendered γ σ) : View γ :=
  FullPageNotFoundView r.tree.notFoundView

/-- The three derived page states of the spec. -/
inductive PageViewState where
  | Forbidden
  | Loading
  | Ready
deriving DecidableEq, Repr

/-- The page state a view belongs to. -/
def viewState {γ : Type} : View γ → PageViewState
  | View.forbidden _ _ _ => PageViewState.Forbidden
  | View.page _ Body.loadingIndicator => PageViewState.Loading
  | View.page _ (Body.fragment _ _) => PageViewState.Ready

/-! ## Life cycle -/

/-- The helper `fetchData`, acting on the number of calls made so far to
`BankAccounts.openWorkspaceView`. -/
def fetchData (skipVBBACal : Bool) (openWorkspaceViewCalls : Nat) : Nat :=
  if skipVBBACal then openWorkspaceViewCalls else openWorkspaceViewCalls + 1

/-- A mounted instance of the page, with the caller's state next to it. -/
structure Instance (γ σ : Type) where
  props : Props γ σ
  firstRender : Bool
  isOffline : Bool
  displayed : View γ
  world : σ
  openWorkspaceViewCalls : Nat

/-- What can happen to a mounted instance: a re-render with (possibly new) props and
window width, or a change of the network status. -/
inductive Event (γ σ : Type) where
  | rerender (p : Props γ σ) (isSmallScreenWidth : Bool)
  | network (isOffline : Bool)

/-- The mount: the first call of the component function with `firstRender.current`
still `true`, the commit, and then the two effects: the ref is cleared and `fetchData`
is called. -/
def mount {γ σ : Type} (utils : PolicyUtils) (routes : ROUTES) (p : Props γ σ)
    (isSmallScreenWidth isOffline : Bool) (world : σ) : Instance γ σ :=
  let r := render utils routes p isSmallScreenWidth true world
  { props := p
    firstRender := false
    isOffline := isOffline
    displayed := display r
    world := r.world
    openWorkspaceViewCalls := fetchData p.shouldSkipVBBACall 0 }

/-- Modelled from the spec: the hook `useNetwork` of `@hooks/useNetwork` is not in the
sources. Following the spec, it calls the `onReconnect` callback of the latest render on
every transition of the network status from offline to online, and at no other change.
The result tells whether the callback is called. -/
def useNetwork (wasOffline isOffline : Bool) : Bool :=
  wasOffline && !isOffline

/-- One event. A re-render calls the component function with the current ref, commits,
and runs the fetch effect when its dependency `shouldSkipVBBACall` changed. A change of
the network status goes through `useNetwork`, whose `onReconnect` callback is
`fetchData(shouldSkipVBBACall)`. -/
def step {γ σ : Type} (utils : PolicyUtils) (routes : ROUTES) (s : Instance γ σ) :
    Event γ σ → Instance γ σ
  | Event.rerender p isSmallScreenWidth =>
    let r := render utils routes p isSmallScreenWidth s.firstRender s.world
    { s with
      props := p
      displayed := display r
      world := r.world
      openWorkspaceViewCalls :=
        if p.shouldSkipVBBACall = s.props.shouldSkipVBBACall then s.openWorkspaceViewCalls
        else fetchData p.shouldSkipVBBACall s.openWorkspaceViewCalls }
  | Event.network isOffline =>
    { s with
      isOffline := isOffline
      openWorkspaceViewCalls :=
        if useNetwork s.isOffline isOffline then
          fetchData s.props.shouldSkipVBBACall s.openWorkspaceViewCalls
        else s.openWorkspaceViewCalls }

/-- A run: the mount followed by a list of events. -/
def run {γ σ : Type} (utils : PolicyUtils) (routes : ROUTES) (p : Props γ σ)
    (isSmallScreenWidth isOffline : Bool) (world : σ) (events : List (Event γ σ)) :
    Instance γ σ :=
  events.foldl (step utils routes) (mount utils routes p isSmallScreenWidth isOffline world)

/-- The props of a re-render event, if it is one. -/
def Event.props? {γ σ : Type} : Event γ σ → Option (Props γ σ)
  | Event.rerender p _ => some p
  | Event.network _ => none

/-- The condition of the Forbidden view, as a proposition on the policy. -/
def forbiddenCondition (utils : PolicyUtils) (policy : Policy) : Prop :=
  isEmpty policy = true ∨ utils.isPolicyAdmin policy = false
    ∨ utils.isPendingDeletePolicy policy = true

instance (utils : PolicyUtils) (policy : Policy) :
    Decidable (forbiddenCondition utils policy) := by
  unfold forbiddenCondition; infer_instance

/-- The loading condition of the render function, as a proposition. -/
def loadingCondition {γ σ : Type} (p : Props γ σ) (firstRender : Bool) : Prop :=
  ((p.reimbursementAccount.bind (·.isLoading)).getD true = true ∨ firstRender = true)
    ∧ p.shouldShowLoading = true

instance {γ σ : Type} (p : Props γ σ) (firstRender : Bool) :
    Decidable (loadingCondition p firstRender) := by
  unfold loadingCondition; infer_instance

/-- The inputs of the steady case: the policy is not forbidden, `shouldShowLoading` is
set and the account record says `isLoading: false`. -/
def readyInputs {γ σ : Type} (utils : PolicyUtils) (p : Props γ σ) : Prop :=
  ¬ forbiddenCondition utils p.policy ∧ p.shouldShowLoading = true
    ∧ p.reimbursementAccount.bind (·.isLoading) = some false

/-- The content the render function obtains from `children` in a given state of the
caller. -/
def contentOf {γ σ : Type} (p : Props γ σ) (world : σ) : γ :=
  (p.children
    (decide ((p.reimbursementAccount.bind (·.achData)).bind (·.state) = some "OPEN"))
    ((p.route.bind (·.params)).bind (·.policyID))
    ((p.user.bind (·.isUsingExpensifyCard)).getD false) world).1

/-- The header element the render function builds. -/
def headerOf {γ σ : Type} (p : Props γ σ) (isSmallScreenWidth : Bool) :
    HeaderWithBackButton :=
  { title := p.headerText
    guidesCallTaskID := p.guidesCallTaskID
    shouldShowBackButton := isSmallScreenWidth
    onBackButtonPress := [NavCall.goBack p.backButtonRoute] }

/-! ## Sample inputs -/

/-- Policy utilities reading an `isAdmin` and a `pendingDelete` entry of the policy. -/
def sampleUtils : PolicyUtils where
  isPolicyAdmin policy :=
    match policy with
    | none => false
    | some o => o.entries.contains ("isAdmin", "true")
  isPendingDeletePolicy policy :=
    match policy with
    | none => false
    | some o => o.entries.contains ("pendingDelete", "true")

/-- A route table. -/
def sampleRoutes : ROUTES := ⟨"settings/workspaces"⟩

/-- A policy the caller administers. -/
def adminPolicy : Policy := some ⟨[("name", "Acme"), ("isAdmin", "true")]⟩

/-- A policy the caller does not administer. -/
def acmePolicy : Policy := some ⟨[("name", "Acme")]⟩

/-- A caller's function that keeps, in the caller's state, the list of the calls made to
it: each call of `recording f` appends its arguments to the list and returns what `f`
returns. -/
def recording {γ : Type} (f : Bool → Option String → Bool → γ) :
    Bool → Option String → Bool → List ChildrenArgs → γ × List ChildrenArgs :=
  fun hasVBA policyID isUsingECard calls =>
    (f hasVBA policyID isUsingECard, calls ++ [(hasVBA, policyID, isUsingECard)])

/-- Sample props: an open bank account that is not loading, policy `"123"`, a user of
the Expensify card, the default `shouldShowLoading`, and a `children` function that
records its calls. -/
def sampleProps (policy : Policy) (shouldSkipVBBACall : Bool) :
    Props String (List ChildrenArgs) where
  backButtonRoute := "settings/profile"
  children := recording fun hasVBA policyID isUsingECard =>
    toString hasVBA ++ "," ++ policyID.getD "undefined" ++ "," ++ toString isUsingECard
  footer := none
  guidesCallTaskID := ""
  headerText := "Workspace"
  policy := policy
  reimbursementAccount := some ⟨some false, some ⟨some "OPEN"⟩⟩
  route := some ⟨some ⟨some "123"⟩⟩
  shouldUseScrollView := false
  shouldSkipVBBACall := shouldSkipVBBACall
  user := some ⟨some true⟩
  shouldShowLoading := true
  shouldShowOfflineIndicatorInWideScreen := false

end WorkspacePageWithSections

namespace FloatingActionButton

/-! ## Press handling -/

/-- The `blur` property of the host element: missing, a function that returns, or a
function that throws. -/
inductive BlurMethod where
  | absent
  | works
  | throws
deriving DecidableEq, Repr

/-- The host element behind `AnimatedPressable`. -/
structure Element where
  id : Nat
  blur : BlurMethod
deriving DecidableEq, Repr

/-- The `current` field of a ref object: `none` stands for `null`. -/
abbrev RefObject := Option Element

/-- The observable effects of a press: the element loses focus, or the `onPress` prop
is called with an event. -/
inductive Effect (ε : Type) where
  | blur (elementId : Nat)
  | onPress (e : ε)
deriving DecidableEq, Repr

/-- The ways a handler can fail. -/
inductive JsError where
  | typeError
  | thrown
deriving DecidableEq, Repr

/-- The result of running a handler: the effects made, and the error thrown if any. -/
structure Outcome (ε : Type) where
  effects : List (Effect ε)
  error : Option JsError
deriving DecidableEq, Repr

/-- The ref callback of `AnimatedPressable`: it stores the element in `fabPressable` and,
when a forwarded ref was given, in that ref as well. The result is the new content of
`fabPressable.current` and of the forwarded ref. -/
def refCallback (el : Option Element) (buttonRef : Option RefObject) :
    RefObject × Option RefObject :=
  (el, buttonRef.map (fun _ => el))

/-- The `onPress` handler of `AnimatedPressable`: `fabPressable.current.blur()` and then
`onPress(e)`. Reading `blur` from `null` and calling a missing `blur` both throw a
`TypeError` before `onPress(e)` is reached. -/
def onPress {ε : Type} (fabPressable : RefObject) (e : ε) : Outcome ε :=
  match fabPressable with
  | none => { effects := [], error := some JsError.typeError }
  | some el =>
    match el.blur with
    | BlurMethod.absent => { effects := [], error := some JsError.typeError }
    | BlurMethod.throws => { effects := [], error := some JsError.thrown }
    | BlurMethod.works => { effects := [Effect.blur el.id, Effect.onPress e], error := none }

/-- The `onLongPress` handler of `AnimatedPressable`: an empty function. -/
def onLongPress {ε : Type} : Outcome ε :=
  { effects := [], error := none }

/-! ## Animation -/

/-- The duration given to `withTiming`, in milliseconds. -/
def duration : ℚ := 340

/-- A running timed transition. -/
structure Timing where
  startValue : ℚ
  toValue : ℚ
  elapsed : ℚ≥0
deriving DecidableEq

/-- The animation state of a mounted button: the `isActive` prop of the last render (the
dependency of the effect), `animatedValue.value`, and the transition in flight. -/
structure Animation where
  isActive : Bool
  animatedValue : ℚ
  timing : Option Timing
deriving DecidableEq

/-- What can happen to a mounted button: a render with a value of `isActive`, or a
display frame after `dt` milliseconds. -/
inductive AnimEvent where
  | render (isActive : Bool)
  | frame (dt : ℚ≥0)
deriving DecidableEq

/-- Modelled from the spec: `withTiming` of `react-native-reanimated` is not in the
sources. Following the spec, assigning it schedules a timed transition from the current
value of `progress` to the given endpoint, replacing any transition in flight. -/
def withTiming (current toValue : ℚ) : Timing :=
  { startValue := current, toValue := toValue, elapsed := 0 }

/-- Modelled from the spec: the value of a timed transition at one frame. Before the
duration has passed it is the start value moved toward the endpoint by the eased
fraction of the elapsed time; from then on it is the endpoint. -/
def Timing.valueAt (easing : ℚ → ℚ) (t : Timing) : ℚ :=
  if duration ≤ (t.elapsed : ℚ) then t.toValue
  else t.startValue + (t.toValue - t.startValue) * easing ((t.elapsed : ℚ) / duration)

/-- Modelled from the spec: one display frame of a timed transition, `dt` milliseconds
after the previous one. The result is the new value of `progress` and the transition
still in flight, which is none once the duration has passed. -/
def Timing.frame (easing : ℚ → ℚ) (t : Timing) (dt : ℚ≥0) : ℚ × Option Timing :=
  let t1 : Timing := { t with elapsed := t.elapsed + dt }
  (t1.valueAt easing, if duration ≤ (t1.elapsed : ℚ) then none else some t1)

/-- The mount: `useSharedValue(isActive ? 1 : 0)`, followed by the first run of the
effect, which assigns `withTiming(isActive ? 1 : 0, ...)`. -/
def mount (isActive : Bool) : Animation :=
  { isActive := isActive
    animatedValue := if isActive then 1 else 0
    timing := some (withTiming (if isActive then 1 else 0) (if isActive then 1 else 0)) }

/-- One event. A render runs the effect only when its dependency `isActive` changed; a
frame advances the transition in flight, if there is one. -/
def step (easing : ℚ → ℚ) (s : Animation) : AnimEvent → Animation
  | AnimEvent.render isActive =>
    if isActive = s.isActive then s
    else
      { isActive := isActive
        animatedValue := s.animatedValue
        timing := some (withTiming s.animatedValue (if isActive then 1 else 0)) }
  | AnimEvent.frame dt =>
    match s.timing with
    | none => s
    | some t =>
      { s with
        animatedValue := (t.frame easing dt).1
        timing := (t.frame easing dt).2 }

/-- The states a button goes through: the given one and the one after each event. -/
def trace (easing : ℚ → ℚ) (s : Animation) : List AnimEvent → List Animation
  | [] => [s]
  | e :: es => s :: trace easing (step easing s e) es

/-- The rotation of the animated style, in degrees: `animatedValue.value * 135`. -/
def rotate (s : Animation) : ℚ :=
  s.animatedValue * 135

/-- A rational ease-in-out curve, used as a sample easing. -/
def smoothstep (x : ℚ) : ℚ :=
  x * x * (3 - 2 * x)

/-- The invariant of the animation: the value and the two ends of the transition in
flight lie between 0 and 1. -/
def Animation.InRange (s : Animation) : Prop :=
  (0 ≤ s.animatedValue ∧ s.animatedValue ≤ 1) ∧
    ∀ t, s.timing = some t →
      (0 ≤ t.startValue ∧ t.startValue ≤ 1) ∧ (0 ≤ t.toValue ∧ t.toValue ≤ 1)

end FloatingActionButton

/-! ## Helper lemmas -/

namespace FloatingActionButton

theorem endpoint_mem (b : Bool) : (0 : ℚ) ≤ (if b then 1 else 0) ∧ (if b then (1 : ℚ) else 0) ≤ 1 := by
  cases b <;> simp

theorem mix_mem {a b e : ℚ} (ha : 0 ≤ a ∧ a ≤ 1) (hb : 0 ≤ b ∧ b ≤ 1)
    (he : 0 ≤ e ∧ e ≤ 1) : 0 ≤ a + (b - a) * e ∧ a + (b - a) * e ≤ 1 := by
  obtain ⟨ha0, ha1⟩ := ha
  obtain ⟨hb0, hb1⟩ := hb
  obtain ⟨he0, he1⟩ := he
  have h : a + (b - a) * e = a * (1 - e) + b * e := by ring
  rw [h]
  constructor
  · have := mul_nonneg ha0 (sub_nonneg.mpr he1)
    have := mul_nonneg hb0 he0
    linarith
  · have h1 : a * (1 - e) ≤ 1 * (1 - e) :=
      mul_le_mul_of_nonneg_right ha1 (sub_nonneg.mpr he1)
    have h2 : b * e ≤ 1 * e := mul_le_mul_of_nonneg_right hb1 he0
    linarith

theorem mount_inRange (b : Bool) : (mount b).InRange := by
  refine ⟨endpoint_mem b, ?_⟩
  intro t ht
  simp only [mount, withTiming, Option.some.injEq] at ht
  subst ht
  exact ⟨endpoint_mem b, endpoint_mem b⟩

theorem step_inRange (easing : ℚ → ℚ)
    (hE : ∀ x, 0 ≤ x → x ≤ 1 → 0 ≤ easing x ∧ easing x ≤ 1)
    (s : Animation) (hs : s.InRange) (e : AnimEvent) : (step easing s e).InRange := by
  obtain ⟨hv, ht⟩ := hs
  cases e with
  | render b =>
    simp only [step]
    split
    · exact ⟨hv, ht⟩
    · refine ⟨hv, ?_⟩
      intro t h
      simp only [withTiming, Option.some.injEq] at h
      subst h
      exact ⟨hv, endpoint_mem b⟩
  | frame dt =>
    simp only [step]
    cases hT : s.timing with
    | none => exact ⟨hv, by intro t h; exact ht t h⟩
    | some t =>
      obtain ⟨hs0, hs1⟩ := ht t hT
      simp only [Timing.frame]
      refine ⟨?_, ?_⟩
      · simp only [Timing.valueAt]
        split
        · exact hs1
        · rename_i hlt
          have hlt2 := not_le.mp hlt
          have hd : (0 : ℚ) < duration := by norm_num [duration]
          have hnn : (0 : ℚ) ≤ ((t.elapsed + dt : ℚ≥0) : ℚ) := NNRat.coe_nonneg _
          apply mix_mem hs0 hs1
          apply hE
          · exact div_nonneg hnn hd.le
          · rw [div_le_one hd]; exact hlt2.le
      · intro t2 h2
        split at h2
        · cases h2
        · simp only [Option.some.injEq] at h2
          subst h2
          exact ⟨hs0, hs1⟩

theorem trace_inRange (easing : ℚ → ℚ)
    (hE : ∀ x, 0 ≤ x → x ≤ 1 → 0 ≤ easing x ∧ easing x ≤ 1)
    (events : List AnimEvent) :
    ∀ s : Animation, s.InRange → ∀ s1 ∈ trace easing s events, s1.InRange := by
  induction events with
  | nil =>
    intro s hs s1 h1
    simp only [trace, List.mem_singleton] at h1
    subst h1
    exact hs
  | cons e es ih =>
    intro s hs s1 h1
    simp only [trace, List.mem_cons] at h1
    rcases h1 with h1 | h1
    · subst h1; exact hs
    · exact ih (step easing s e) (step_inRange easing hE s hs e) s1 h1

theorem smoothstep_mem (x : ℚ) (h0 : 0 ≤ x) (h1 : x ≤ 1) :
    0 ≤ smoothstep x ∧ smoothstep x ≤ 1 := by
  unfold smoothstep
  constructor
  · have : 0 ≤ 3 - 2 * x := by linarith
    positivity
  · nlinarith [mul_nonneg h0 h0, mul_nonneg (sub_nonneg.mpr h1) (sub_nonneg.mpr h1),
      mul_nonneg (mul_nonneg (sub_nonneg.mpr h1) (sub_nonneg.mpr h1)) h0]

end FloatingActionButton

namespace WorkspacePageWithSections

theorem hasVBA_eq (x : Option String) :
    decide (x.getD "" = BankAccount.STATE.OPEN) = decide (x = some "OPEN") := by
  cases x with
  | none => simp [BankAccount.STATE.OPEN]
  | some v => simp [BankAccount.STATE.OPEN]

theorem display_render {γ σ : Type} (utils : PolicyUtils) (routes : ROUTES)
    (p : Props γ σ) (small fr : Bool) (w : σ) :
    display (render utils routes p small fr w) =
      if forbiddenCondition utils p.policy then
        View.forbidden (if isEmpty p.policy then none else some "workspace.common.notAuthorized")
          [NavCall.goBack routes.SETTINGS_WORKSPACES] [NavCall.goBack routes.SETTINGS_WORKSPACES]
      else
        View.page (headerOf p small)
          (if loadingCondition p fr then Body.loadingIndicator
           else Body.fragment
            (if p.shouldUseScrollView then ContentBox.scrollView (contentOf p w)
             else ContentBox.bare (contentOf p w)) p.footer) := by
  simp only [display, FullPageNotFoundView, render, lodashGet, hasVBA_eq, forbiddenCondition,
    loadingCondition, headerOf, contentOf]
  cases h1 : isEmpty p.policy <;> cases h2 : utils.isPolicyAdmin p.policy <;>
    cases h3 : utils.isPendingDeletePolicy p.policy <;>
    cases h4 : (p.reimbursementAccount.bind (·.isLoading)).getD true <;>
    cases fr <;> cases h5 : p.shouldShowLoading <;> simp

theorem viewState_render {γ σ : Type} (utils : PolicyUtils) (routes : ROUTES)
    (p : Props γ σ) (small fr : Bool) (w : σ) :
    viewState (display (render utils routes p small fr w)) =
      if forbiddenCondition utils p.policy then PageViewState.Forbidden
      else if loadingCondition p fr then PageViewState.Loading
      else PageViewState.Ready := by
  rw [display_render]
  by_cases h1 : forbiddenCondition utils p.policy
  · simp [h1, viewState]
  · by_cases h2 : loadingCondition p fr
    · simp [h1, h2, viewState]
    · simp [h1, h2, viewState]

theorem readyInputs_not_loading {γ σ : Type} (utils : PolicyUtils) (p : Props γ σ)
    (h : readyInputs utils p) : ¬ loadingCondition p false := by
  obtain ⟨_, _, h3⟩ := h
  simp [loadingCondition, h3]

theorem readyInputs_loading_first {γ σ : Type} (utils : PolicyUtils) (p : Props γ σ)
    (h : readyInputs utils p) : loadingCondition p true := by
  obtain ⟨_, h2, _⟩ := h
  simp [loadingCondition, h2]

theorem foldl_step_firstRender {γ σ : Type} (utils : PolicyUtils) (routes : ROUTES)
    (events : List (Event γ σ)) :
    ∀ s : Instance γ σ, s.firstRender = false →
      (events.foldl (step utils routes) s).firstRender = false := by
  induction events with
  | nil => intro s hs; exact hs
  | cons e es ih =>
    intro s hs
    simp only [List.foldl_cons]
    apply ih
    cases e <;> simpa [step] using hs

theorem foldl_step_ready {γ σ : Type} (utils : PolicyUtils) (routes : ROUTES)
    (events : List (Event γ σ)) :
    ∀ s : Instance γ σ, s.firstRender = false →
      (∀ e ∈ events, ∀ q, e.props? = some q → readyInputs utils q) →
      (viewState s.displayed = PageViewState.Ready ∨ ∃ e ∈ events, e.props?.isSome = true) →
      viewState (events.foldl (step utils routes) s).displayed = PageViewState.Ready := by
  induction events with
  | nil =>
    intro s _ _ h
    rcases h with h | ⟨e, he, _⟩
    · exact h
    · cases he
  | cons e es ih =>
    intro s hs hq h
    simp only [List.foldl_cons]
    have hq2 : ∀ e1 ∈ es, ∀ q, e1.props? = some q → readyInputs utils q :=
      fun e1 h1 => hq e1 (List.mem_cons_of_mem _ h1)
    cases e with
    | rerender q small =>
      apply ih _ (by simpa [step] using hs) hq2
      left
      have hr : readyInputs utils q := hq _ (List.mem_cons_self _ _) q rfl
      simp only [step, hs, viewState_render]
      simp [hr.1, readyInputs_not_loading utils q hr]
    | network off =>
      apply ih _ (by simpa [step] using hs) hq2
      rcases h with h | ⟨e1, he1, hp⟩
      · left; simpa [step] using h
      · right
        rcases List.mem_cons.mp he1 with h0 | h0
        · subst h0; simp [Event.props?] at hp
        · exact ⟨e1, h0, hp⟩

end WorkspacePageWithSections

/-! ## The page: claims -/

namespace WorkspacePageWithSections

/-- C1: for every policy, account record, first-render flag and `shouldShowLoading`, the
page shows the Forbidden view if and only if the policy is empty, or the caller is not an
admin of it, or it is pending deletion; changing the account record, the first-render flag
or `shouldShowLoading` never changes that; and the page state is Forbidden before Loading
before Ready. -/
theorem forbidden_iff_and_precedence {γ σ : Type} (utils : PolicyUtils) (routes : ROUTES)
    (p : Props γ σ) (small fr : Bool) (w : σ) :
    (viewState (display (render utils routes p small fr w)) = PageViewState.Forbidden
        ↔ (isEmpty p.policy = true ∨ utils.isPolicyAdmin p.policy = false
            ∨ utils.isPendingDeletePolicy p.policy = true))
    ∧ (∀ (ra : Option ReimbursementAccount) (fr2 showLoading : Bool) (w2 : σ),
        (viewState (display (render utils routes
            { p with reimbursementAccount := ra, shouldShowLoading := showLoading }
            small fr2 w2)) = PageViewState.Forbidden
          ↔ viewState (display (render utils routes p small fr w)) = PageViewState.Forbidden))
    ∧ viewState (display (render utils routes p small fr w)) =
        (if forbiddenCondition utils p.policy then PageViewState.Forbidden
         else if loadingCondition p fr then PageViewState.Loading
         else PageViewState.Ready) := by
  have key : ∀ (q : Props γ σ) (f : Bool) (w1 : σ), q.policy = p.policy →
      (viewState (display (render utils routes q small f w1)) = PageViewState.Forbidden
        ↔ forbiddenCondition utils p.policy) := by
    intro q f w1 hq
    rw [viewState_render, hq]
    by_cases h1 : forbiddenCondition utils p.policy
    · simp [h1]
    · by_cases h2 : loadingCondition q f <;> simp [h1, h2]
  refine ⟨key p fr w rfl, ?_, viewState_render utils routes p small fr w⟩
  intro ra fr2 showLoading w2
  exact (key { p with reimbursementAccount := ra, shouldShowLoading := showLoading } fr2 w2
    rfl).trans (key p fr w rfl).symm

/-- C2: on a render that is not forbidden, the body is the loading indicator if and only
if (`isLoading` of the account record, taken as true when absent, or the first render has
not been committed) and `shouldShowLoading`; otherwise it is the content, in a scroll view
or bare, followed by the footer. With `shouldShowLoading` set, the first render shows the
loading indicator for every account record. -/
theorem loading_iff {γ σ : Type} (utils : PolicyUtils) (routes : ROUTES)
    (p : Props γ σ) (small fr : Bool) (w : σ) (h : ¬ forbiddenCondition utils p.policy) :
    display (render utils routes p small fr w) =
        View.page (headerOf p small)
          (if ((p.reimbursementAccount.bind (·.isLoading)).getD true = true ∨ fr = true)
              ∧ p.shouldShowLoading = true
           then Body.loadingIndicator
           else Body.fragment
            (if p.shouldUseScrollView then ContentBox.scrollView (contentOf p w)
             else ContentBox.bare (contentOf p w)) p.footer)
    ∧ (viewState (display (render utils routes p small fr w)) = PageViewState.Loading
        ↔ ((p.reimbursementAccount.bind (·.isLoading)).getD true = true ∨ fr = true)
            ∧ p.shouldShowLoading = true)
    ∧ (p.shouldShowLoading = true → ∀ ra : Option ReimbursementAccount,
        display (render utils routes { p with reimbursementAccount := ra } small true w) =
          View.page (headerOf p small) Body.loadingIndicator) := by
  refine ⟨?_, ?_, ?_⟩
  · rw [display_render, if_neg h]
    rfl
  · rw [viewState_render, if_neg h]
    by_cases h2 : loadingCondition p fr
    · simp only [if_pos h2, true_iff]; exact h2
    · simp only [if_neg h2, reduceCtorEq, false_iff]; exact h2
  · intro hs ra
    rw [display_render, if_neg h]
    have : loadingCondition { p with reimbursementAccount := ra } true := by
      simp [loadingCondition, hs]
    rw [if_pos this]
    rfl

/-- Witness of C2: an administered policy on its first render. -/
theorem loading_iff_witness :
    ¬ forbiddenCondition sampleUtils (sampleProps adminPolicy false).policy
    ∧ display (render sampleUtils sampleRoutes
        { sampleProps adminPolicy false with reimbursementAccount := none } false true []) =
      View.page (headerOf (sampleProps adminPolicy false) false) Body.loadingIndicator :=
  ⟨by decide,
   (loading_iff sampleUtils sampleRoutes (sampleProps adminPolicy false) false true []
      (by decide)).2.2 rfl none⟩

/-- C3: every run of the component function calls `children` exactly once, whatever view
is shown: the caller's state after the run is the one left by a single call
`children(hasVBA, policyID, isUsingECard)` made in the state before the run, where `hasVBA`
is true if and only if the ACH state is `"OPEN"` (so false when the account record or the
state is absent), `policyID` is `route.params.policyID` and `isUsingECard` is
`user.isUsingExpensifyCard`, false when absent. The content shown in the Ready view is what
that call returned; the mount and every re-render make one such call each, and a change of
the network status makes none. For an open account, a card user and policy `"123"` a
recording `children` gains the single entry `(true, "123", true)` on every run. -/
theorem children_called_once {γ σ : Type} (utils : PolicyUtils) (routes : ROUTES)
    (p : Props γ σ) (small fr : Bool) (w : σ)
    (hasVBA : Bool) (policyID : Option String) (isUsingECard : Bool)
    (hVBA : hasVBA = true ↔
      (p.reimbursementAccount.bind (·.achData)).bind (·.state) = some "OPEN")
    (hID : policyID = (p.route.bind (·.params)).bind (·.policyID))
    (hCard : isUsingECard = (p.user.bind (·.isUsingExpensifyCard)).getD false) :
    (render utils routes p small fr w).world = (p.children hasVBA policyID isUsingECard w).2
    ∧ (∀ header main footer,
        display (render utils routes p small fr w) =
          View.page header (Body.fragment main footer) →
        main = (if p.shouldUseScrollView
          then ContentBox.scrollView (p.children hasVBA policyID isUsingECard w).1
          else ContentBox.bare (p.children hasVBA policyID isUsingECard w).1))
    ∧ (∀ offline, (mount utils routes p small offline w).world =
        (p.children hasVBA policyID isUsingECard w).2)
    ∧ (∀ s : Instance γ σ, (step utils routes s (Event.rerender p small)).world =
        (p.children hasVBA policyID isUsingECard s.world).2)
    ∧ (∀ (s : Instance γ σ) (offline : Bool),
        (step utils routes s (Event.network offline)).world = s.world)
    ∧ (∀ policy skip calls,
        (render utils routes (sampleProps policy skip) small fr calls).world =
          calls ++ [(true, some "123", true)]) := by
  have hV : hasVBA =
      decide ((p.reimbursementAccount.bind (·.achData)).bind (·.state) = some "OPEN") := by
    cases hasVBA
    · simpa using hVBA
    · simpa using hVBA
  subst hV hID hCard
  refine ⟨?_, ?_, ?_, ?_, ?_, ?_⟩
  · simp only [render, lodashGet, hasVBA_eq]
  · intro header main footer h
    simp only [display, FullPageNotFoundView, render, lodashGet, hasVBA_eq] at h
    split at h
    · cases h
    · simp only [View.page.injEq] at h
      obtain ⟨_, hb⟩ := h
      split at hb
      · cases hb
      · simp only [Body.fragment.injEq] at hb
        exact hb.1.symm
  · intro offline
    simp only [mount, render, lodashGet, hasVBA_eq]
  · intro s
    simp only [step, render, lodashGet, hasVBA_eq]
  · intro s offline
    simp only [step]
  · intro policy skip calls
    simp [render, lodashGet, sampleProps, recording, BankAccount.STATE.OPEN]

/-- Witness of C3: the sample props on a forbidden first render, with a recording
`children` and no call made before. -/
theorem children_called_once_witness :
    (render sampleUtils sampleRoutes (sampleProps none true) true true []).world =
      ((sampleProps none true).children true (some "123") true []).2
    ∧ ((sampleProps none true).children true (some "123") true []).2 =
      [(true, some "123", true)] :=
  ⟨(children_called_once sampleUtils sampleRoutes (sampleProps none true) true true []
      true (some "123") true (by decide) rfl rfl).1, rfl⟩

/-- Witness of C1: a policy the caller does not administer is forbidden, also on the first
render with a loading account record. -/
theorem forbidden_iff_and_precedence_witness :
    viewState (display (render sampleUtils sampleRoutes (sampleProps acmePolicy false)
      false true [])) = PageViewState.Forbidden :=
  (forbidden_iff_and_precedence sampleUtils sampleRoutes (sampleProps acmePolicy false)
    false true []).1.mpr (Or.inr (Or.inl (by decide)))

/-- C4: whenever the Forbidden view is shown, it has no subtitle if and only if the policy
is empty, and for every non-empty policy its subtitle is the key
`workspace.common.notAuthorized`. An empty policy object gives Forbidden without subtitle;
the policy with the single entry `name: "Acme"` and no admin right gives Forbidden with the
"not authorized" subtitle. -/
theorem forbidden_subtitle {γ σ : Type} (utils : PolicyUtils) (routes : ROUTES)
    (p : Props γ σ) (small fr : Bool) (w : σ) :
    (∀ sub back link, display (render utils routes p small fr w) = View.forbidden sub back link →
        ((sub = none ↔ isEmpty p.policy = true)
          ∧ (isEmpty p.policy = false → sub = some "workspace.common.notAuthorized")))
    ∧ (p.policy = some ⟨[]⟩ → ∃ back link,
        display (render utils routes p small fr w) = View.forbidden none back link)
    ∧ (p.policy = some ⟨[("name", "Acme")]⟩ → utils.isPolicyAdmin p.policy = false →
        ∃ back link, display (render utils routes p small fr w) =
          View.forbidden (some "workspace.common.notAuthorized") back link) := by
  refine ⟨?_, ?_, ?_⟩
  · intro sub back link h
    rw [display_render] at h
    by_cases hf : forbiddenCondition utils p.policy
    · rw [if_pos hf] at h
      cases he : isEmpty p.policy
      · simp only [he, Bool.false_eq_true, if_false, View.forbidden.injEq] at h
        obtain ⟨h1, _, _⟩ := h
        subst h1
        simp
      · simp only [he, if_true, View.forbidden.injEq] at h
        obtain ⟨h1, _, _⟩ := h
        subst h1
        simp
    · rw [if_neg hf] at h
      cases h
  · intro hp
    rw [display_render]
    have hf : forbiddenCondition utils p.policy := Or.inl (by rw [hp]; rfl)
    have he : isEmpty p.policy = true := by rw [hp]; rfl
    rw [if_pos hf]
    simp only [he, if_true]
    exact ⟨_, _, rfl⟩
  · intro hp ha
    rw [display_render]
    have hf : forbiddenCondition utils p.policy := Or.inr (Or.inl ha)
    have he : isEmpty p.policy = false := by rw [hp]; rfl
    rw [if_pos hf]
    simp only [he, Bool.false_eq_true, if_false]
    exact ⟨_, _, rfl⟩

/-- Witness of C4: the policy `name: "Acme"` without admin right. -/
theorem forbidden_subtitle_witness :
    (sampleProps acmePolicy false).policy = some ⟨[("name", "Acme")]⟩
    ∧ sampleUtils.isPolicyAdmin (sampleProps acmePolicy false).policy = false
    ∧ ∃ back link, display (render sampleUtils sampleRoutes (sampleProps acmePolicy false)
        false false []) = View.forbidden (some "workspace.common.notAuthorized") back link :=
  ⟨rfl, by decide,
   (forbidden_subtitle sampleUtils sampleRoutes (sampleProps acmePolicy false)
      false false []).2.2 rfl (by decide)⟩

/-- C5, as stated, fails: for an absent policy and `backButtonRoute = "settings/profile"`
the back and link handlers of the Forbidden view do not call `goBack` with
`backButtonRoute`. -/
theorem forbidden_back_not_backButtonRoute :
    ¬ ∀ (p : Props String (List ChildrenArgs)) (sub : Option String)
        (back link : List NavCall),
        display (render sampleUtils sampleRoutes p false false []) =
            View.forbidden sub back link →
          back = [NavCall.goBack p.backButtonRoute]
            ∧ link = [NavCall.goBack p.backButtonRoute] := by
  intro h
  have h1 := h (sampleProps none false) none [NavCall.goBack "settings/workspaces"]
    [NavCall.goBack "settings/workspaces"] (by decide)
  exact absurd h1.1 (by decide)

/-- C5, amended: in the Forbidden view the back handler and the link handler both call
`goBack` with the fixed route `ROUTES.SETTINGS_WORKSPACES`, whatever `backButtonRoute` is;
`backButtonRoute` is the route of the header back button of a page that is not
forbidden. -/
theorem forbidden_back_settings_workspaces {γ σ : Type} (utils : PolicyUtils) (routes : ROUTES)
    (p : Props γ σ) (small fr : Bool) (w : σ) :
    (∀ sub back link, display (render utils routes p small fr w) = View.forbidden sub back link →
        back = [NavCall.goBack routes.SETTINGS_WORKSPACES]
          ∧ link = [NavCall.goBack routes.SETTINGS_WORKSPACES])
    ∧ (∀ header body, display (render utils routes p small fr w) = View.page header body →
        header.onBackButtonPress = [NavCall.goBack p.backButtonRoute]) := by
  refine ⟨?_, ?_⟩
  · intro sub back link h
    rw [display_render] at h
    by_cases hf : forbiddenCondition utils p.policy
    · rw [if_pos hf] at h
      simp only [View.forbidden.injEq] at h
      exact ⟨h.2.1.symm, h.2.2.symm⟩
    · rw [if_neg hf] at h
      cases h
  · intro header body h
    rw [display_render] at h
    by_cases hf : forbiddenCondition utils p.policy
    · rw [if_pos hf] at h
      cases h
    · rw [if_neg hf] at h
      simp only [View.page.injEq] at h
      rw [← h.1]
      rfl

/-- Witness of C5 amended: the Forbidden view of an absent policy. -/
theorem forbidden_back_settings_workspaces_witness :
    display (render sampleUtils sampleRoutes (sampleProps none false) false false []) =
        View.forbidden none [NavCall.goBack "settings/workspaces"]
          [NavCall.goBack "settings/workspaces"]
    ∧ [NavCall.goBack "settings/workspaces"] = [NavCall.goBack sampleRoutes.SETTINGS_WORKSPACES] :=
  ⟨by decide,
   ((forbidden_back_settings_workspaces sampleUtils sampleRoutes (sampleProps none false)
      false false []).1 none [NavCall.goBack "settings/workspaces"]
      [NavCall.goBack "settings/workspaces"] (by decide)).1⟩

/-- C6: each refetch trigger calls `BankAccounts.openWorkspaceView` once when
`shouldSkipVBBACall` is false at that event and not at all when it is true: the mount, a
change of the network status from offline to online, and a re-render in which
`shouldSkipVBBACall` changed. A flip from true to false makes one call, a flip from false
to true makes none. Other events make no call. -/
theorem fetch_once_per_trigger {γ σ : Type} (utils : PolicyUtils) (routes : ROUTES) :
    (∀ (p : Props γ σ) (small offline : Bool) (w : σ),
        (mount utils routes p small offline w).openWorkspaceViewCalls =
          if p.shouldSkipVBBACall then 0 else 1)
    ∧ (∀ s : Instance γ σ, s.isOffline = true →
        (step utils routes s (Event.network false)).openWorkspaceViewCalls =
          s.openWorkspaceViewCalls + if s.props.shouldSkipVBBACall then 0 else 1)
    ∧ (∀ (s : Instance γ σ) (p : Props γ σ) (small : Bool),
        p.shouldSkipVBBACall ≠ s.props.shouldSkipVBBACall →
        (step utils routes s (Event.rerender p small)).openWorkspaceViewCalls =
          s.openWorkspaceViewCalls + if p.shouldSkipVBBACall then 0 else 1)
    ∧ (∀ (s : Instance γ σ) (p : Props γ σ) (small : Bool),
        s.props.shouldSkipVBBACall = true → p.shouldSkipVBBACall = false →
        (step utils routes s (Event.rerender p small)).openWorkspaceViewCalls =
          s.openWorkspaceViewCalls + 1)
    ∧ (∀ (s : Instance γ σ) (p : Props γ σ) (small : Bool),
        s.props.shouldSkipVBBACall = false → p.shouldSkipVBBACall = true →
        (step utils routes s (Event.rerender p small)).openWorkspaceViewCalls =
          s.openWorkspaceViewCalls)
    ∧ (∀ (s : Instance γ σ) (p : Props γ σ) (small : Bool),
        p.shouldSkipVBBACall = s.props.shouldSkipVBBACall →
        (step utils routes s (Event.rerender p small)).openWorkspaceViewCalls =
          s.openWorkspaceViewCalls)
    ∧ (∀ (s : Instance γ σ) (offline : Bool), (s.isOffline = false ∨ offline = true) →
        (step utils routes s (Event.network offline)).openWorkspaceViewCalls =
          s.openWorkspaceViewCalls) := by
  refine ⟨?_, ?_, ?_, ?_, ?_, ?_, ?_⟩
  · intro p small offline w
    cases h : p.shouldSkipVBBACall <;> simp [mount, fetchData, h]
  · intro s hs
    cases h : s.props.shouldSkipVBBACall <;> simp [step, useNetwork, fetchData, h, hs]
  · intro s p small hne
    cases h : p.shouldSkipVBBACall <;> cases h2 : s.props.shouldSkipVBBACall <;>
      simp_all [step, fetchData]
  · intro s p small h1 h2
    simp [step, fetchData, h1, h2]
  · intro s p small h1 h2
    simp [step, fetchData, h1, h2]
  · intro s p small h
    simp [step, h]
  · intro s offline h
    rcases h with h | h <;> simp [step, useNetwork, h]

/-- Witness of C6: a page mounted offline with fetching allowed comes back online. -/
theorem fetch_once_per_trigger_witness :
    (mount sampleUtils sampleRoutes (sampleProps adminPolicy false) false true []).isOffline
      = true
    ∧ (step sampleUtils sampleRoutes
        (mount sampleUtils sampleRoutes (sampleProps adminPolicy false) false true [])
        (Event.network false)).openWorkspaceViewCalls = 1 + 1 :=
  ⟨rfl,
   (fetch_once_per_trigger sampleUtils sampleRoutes).2.1
      (mount sampleUtils sampleRoutes (sampleProps adminPolicy false) false true []) rfl⟩

/-- C10, as stated, fails: with a policy that is not forbidden, `shouldShowLoading` set and
`isLoading: false` from the mount on, the body displayed after the first commit is not
the content. -/
theorem displayed_after_mount_not_ready :
    ¬ ∀ (p : Props String (List ChildrenArgs)) (small offline : Bool),
        readyInputs sampleUtils p →
        viewState (mount sampleUtils sampleRoutes p small offline []).displayed =
          PageViewState.Ready := by
  intro h
  have h1 := h (sampleProps adminPolicy true) false false
    ⟨by decide, rfl, rfl⟩
  exact absurd h1 (by decide)

/-- C10, amended: in every run where the policy is not forbidden, `shouldShowLoading` is
set and `isLoading` is false from the mount on, the first commit displays the loading
indicator and clears the first-render ref, and the displayed body is the content as soon
as the component has rendered again after that commit: the ref is cleared for good, so
every later render shows the content. -/
theorem ready_after_rerender {γ σ : Type} (utils : PolicyUtils) (routes : ROUTES)
    (p : Props γ σ) (small offline : Bool) (w : σ) (events : List (Event γ σ))
    (h0 : readyInputs utils p)
    (hev : ∀ e ∈ events, ∀ q, e.props? = some q → readyInputs utils q) :
    viewState (mount utils routes p small offline w).displayed = PageViewState.Loading
    ∧ (mount utils routes p small offline w).firstRender = false
    ∧ (run utils routes p small offline w events).firstRender = false
    ∧ ((∃ e ∈ events, e.props?.isSome = true) →
        viewState (run utils routes p small offline w events).displayed = PageViewState.Ready)
    ∧ (∀ q small2, readyInputs utils q →
        viewState (step utils routes (run utils routes p small offline w events)
          (Event.rerender q small2)).displayed = PageViewState.Ready) := by
  have hfr : (run utils routes p small offline w events).firstRender = false :=
    foldl_step_firstRender utils routes events _ rfl
  refine ⟨?_, rfl, hfr, ?_, ?_⟩
  · simp only [mount, viewState_render]
    simp [h0.1, readyInputs_loading_first utils p h0]
  · intro hex
    exact foldl_step_ready utils routes events _ rfl hev (Or.inr hex)
  · intro q small2 hq
    simp only [step, hfr, viewState_render]
    simp [hq.1, readyInputs_not_loading utils q hq]

/-- Witness of C10 amended: a mount followed by a network change and one re-render with
the same props. -/
theorem ready_after_rerender_witness :
    readyInputs sampleUtils (sampleProps adminPolicy true)
    ∧ viewState (run sampleUtils sampleRoutes (sampleProps adminPolicy true) false false []
        [Event.network true, Event.rerender (sampleProps adminPolicy true) false]).displayed =
      PageViewState.Ready :=
  ⟨⟨by decide, rfl, rfl⟩,
   (ready_after_rerender sampleUtils sampleRoutes (sampleProps adminPolicy true) false false []
      [Event.network true, Event.rerender (sampleProps adminPolicy true) false]
      ⟨by decide, rfl, rfl⟩
      (by
        intro e he q hq
        simp only [List.mem_cons, List.mem_singleton, List.not_mem_nil, or_false] at he
        rcases he with he | he
        · subst he; simp [Event.props?] at hq
        · subst he
          simp only [Event.props?, Option.some.injEq] at hq
          subst hq
          exact ⟨by decide, rfl, rfl⟩)).2.2.2.1
      ⟨_, List.mem_cons_of_mem _ (List.mem_singleton_self _), rfl⟩⟩

end WorkspacePageWithSections

/-! ## The button: claims -/

namespace FloatingActionButton

/-- C7: for every initial `isActive` and every finite sequence of renders (toggles) and
frames, taken at arbitrary times of the transitions in flight, the animation value starts
at the endpoint of the initial `isActive` (1 if active, else 0), stays between 0 and 1 in
every state reached, and the rotation in degrees is always 135 times the value, hence
between 0 and 135. The easing curve is any curve without overshoot on the unit
interval. -/
theorem progress_in_unit_interval (easing : ℚ → ℚ)
    (hE : ∀ x, 0 ≤ x → x ≤ 1 → 0 ≤ easing x ∧ easing x ≤ 1)
    (isActive : Bool) (events : List AnimEvent) :
    (mount isActive).animatedValue = (if isActive then 1 else 0)
    ∧ ∀ s ∈ trace easing (mount isActive) events,
        (0 ≤ s.animatedValue ∧ s.animatedValue ≤ 1)
          ∧ rotate s = 135 * s.animatedValue
          ∧ (0 ≤ rotate s ∧ rotate s ≤ 135) := by
  refine ⟨rfl, ?_⟩
  intro s hs
  have h := (trace_inRange easing hE events (mount isActive) (mount_inRange isActive) s hs).1
  refine ⟨h, ?_, ?_, ?_⟩
  · unfold rotate; ring
  · unfold rotate; linarith [h.1]
  · unfold rotate; linarith [h.2]

/-- Witness of C7: a button mounted active, toggled off 100 ms later and on again 50 ms
after that, with a rational ease-in-out curve. -/
theorem progress_in_unit_interval_witness :
    (∀ x, 0 ≤ x → x ≤ 1 → 0 ≤ smoothstep x ∧ smoothstep x ≤ 1)
    ∧ (mount true).animatedValue = (if true then 1 else 0)
    ∧ ∀ s ∈ trace smoothstep (mount true)
          [AnimEvent.frame 100, AnimEvent.render false, AnimEvent.frame 50,
           AnimEvent.render true, AnimEvent.frame 400],
        (0 ≤ s.animatedValue ∧ s.animatedValue ≤ 1)
          ∧ rotate s = 135 * s.animatedValue
          ∧ (0 ≤ rotate s ∧ rotate s ≤ 135) :=
  ⟨smoothstep_mem,
   progress_in_unit_interval smoothstep smoothstep_mem true
     [AnimEvent.frame 100, AnimEvent.render false, AnimEvent.frame 50,
      AnimEvent.render true, AnimEvent.frame 400]⟩

/-- C8, as stated, fails: when the internal ref is empty the press handler throws a
`TypeError` and the `onPress` prop is not called. -/
theorem press_without_blur_fails :
    ¬ ∀ (fabPressable : RefObject) (e : String),
        (fabPressable = none ∨ ∃ el, fabPressable = some el ∧ el.blur ≠ BlurMethod.works) →
          Effect.onPress e ∈ (onPress fabPressable e).effects
            ∧ (onPress fabPressable e).error = none := by
  intro h
  have h1 := h none "press" (Or.inl rfl)
  exact absurd h1.2 (by decide)

/-- C8, amended: a press proceeds (the `onPress` prop is called with the event and no
error is thrown) if and only if the internal ref holds an element whose `blur` is callable
and returns; when the ref is empty or the element has no working `blur`, the handler
throws and the `onPress` prop is not called. -/
theorem press_proceeds_iff_blur_works {ε : Type} (fabPressable : RefObject) (e : ε) :
    ((Effect.onPress e ∈ (onPress fabPressable e).effects
        ∧ (onPress fabPressable e).error = none)
      ↔ ∃ el, fabPressable = some el ∧ el.blur = BlurMethod.works)
    ∧ ((fabPressable = none ∨ ∃ el, fabPressable = some el ∧ el.blur ≠ BlurMethod.works) →
        (onPress fabPressable e).effects = []
          ∧ (onPress fabPressable e).error ≠ none) := by
  cases fabPressable with
  | none => simp [onPress]
  | some el =>
    obtain ⟨id, b⟩ := el
    cases b <;> simp [onPress]

/-- Witness of C8 amended: an element without a `blur` function. -/
theorem press_proceeds_iff_blur_works_witness :
    (onPress (some ⟨7, BlurMethod.absent⟩) "press").effects = []
    ∧ (onPress (some ⟨7, BlurMethod.absent⟩) "press").error ≠ none :=
  (press_proceeds_iff_blur_works (some ⟨7, BlurMethod.absent⟩) "press").2
    (Or.inr ⟨⟨7, BlurMethod.absent⟩, rfl, by decide⟩)

/-- C9: once the ref callback has stored the element, a press with event `e` on an element
whose `blur` works makes exactly two effects, in this order: `blur` on that element, then
the `onPress` prop called with the same `e`; no error is thrown, and a forwarded ref holds
the same element. A long press makes no effect and throws nothing. -/
theorem press_blurs_then_calls_onPress {ε : Type} (el : Element) (e : ε)
    (buttonRef : Option RefObject) (h : el.blur = BlurMethod.works) :
    (refCallback (some el) buttonRef).1 = some el
    ∧ (refCallback (some el) buttonRef).2 = buttonRef.map (fun _ => some el)
    ∧ onPress (refCallback (some el) buttonRef).1 e =
        { effects := [Effect.blur el.id, Effect.onPress e], error := none }
    ∧ (onLongPress : Outcome ε) = { effects := [], error := none } := by
  refine ⟨rfl, rfl, ?_, rfl⟩
  simp [refCallback, onPress, h]

/-- Witness of C9: element 7 with a working `blur`, and a forwarded ref. -/
theorem press_blurs_then_calls_onPress_witness :
    (⟨7, BlurMethod.works⟩ : Element).blur = BlurMethod.works
    ∧ onPress (refCallback (some ⟨7, BlurMethod.works⟩) (some none)).1 "press" =
        { effects := [Effect.blur 7, Effect.onPress "press"], error := none } :=
  ⟨rfl,
   (press_blurs_then_calls_onPress ⟨7, BlurMethod.works⟩ "press" (some none) rfl).2.2.1⟩

end FloatingActionButton
